import Mathlib

/-
Verification development for the route-construction and route-optimization
pipeline of the DEX aggregation SDK (`local-paraswap-sdk.ts` together with the
curve-family route-merge module of the same repository).

The TypeScript source is shallowly embedded: records become structures, JS
arrays become `List`, JS `bigint` arithmetic becomes `Nat` arithmetic
(all amounts are non-negative), optional values become `Option`, and throwing
code becomes `Except`.  String case-insensitive comparison
(`a.toLowerCase() === b.toLowerCase()`) is embedded through a character-wise
lowercase map, which is exactly what `String.prototype.toLowerCase` does on
the ASCII hex addresses involved.  The gas-cost summation
(`(parseFloat(x) + parseFloat(y)).toFixed(6)`) is embedded bit-exactly in
integer arithmetic: `parseFloat` of a fixed-notation decimal numeral is the
nearest IEEE-754 binary64 value (ties to even), `+` is the correctly rounded
binary64 sum, and `toFixed(6)` picks the integer numerator closest to the
exact double value scaled by 10^6 (ties to the larger), rendered with six
fractional digits.  Doubles are represented as an exact significand times a
power of two with unbounded exponent, which coincides with binary64 on the
whole normal finite range; the embedded `parseFloat` grammar is the
sign-less fixed-point notation gas-cost strings take (no exponent notation;
a non-numeric string is NaN, and NaN propagates to the printed `"NaN"`), and
subnormal or overflowing magnitudes are outside the embedded domain, which
the corresponding theorem restricts by hypothesis.  A second, clearly marked
definition follows the specification's words instead (exact decimal-string
addition, free of binary drift) and is used only to compare the two.
-/

namespace ParaswapCore

/-- Trade side enumeration (`SwapSide` in the source): the fixed amount is the
input for `SELL` and the output for `BUY`. -/
inductive SwapSide where
  | SELL
  | BUY
deriving DecidableEq, Repr

/-- Protocol version tag (`ParaSwapVersion` in the source). -/
inductive ParaSwapVersion where
  | V5
  | V6
deriving DecidableEq, Repr

/-- One leg of a path-based venue's swap path (`{tokenIn, tokenOut}` objects
stored in `data.path`). -/
structure PathLeg where
  tokenIn : String
  tokenOut : String
deriving DecidableEq, Repr

/-- The venue-specific `data` payload of a swap exchange, with the two fields
the merge algorithm reads and writes: the swap path and the gas cost in USD
(a decimal string). -/
structure ExchangeData where
  path : List PathLeg
  gasUSD : String
deriving DecidableEq, Repr

/-- One venue's contribution to a hop (`OptimalSwapExchange` in the source). -/
structure OptimalSwapExchange where
  exchange : String
  srcAmount : String
  destAmount : String
  percent : Nat
  poolAddresses : List String
  data : ExchangeData
deriving DecidableEq, Repr

/-- One sequential hop of a route (`OptimalSwap` in the source): source and
destination token with decimals, and the parallel split of exchanges. -/
structure OptimalSwap where
  srcToken : String
  srcDecimals : Nat
  destToken : String
  destDecimals : Nat
  swapExchanges : List OptimalSwapExchange
deriving DecidableEq, Repr

/-- One parallel share of the total volume (`OptimalRoute` in the source). -/
structure OptimalRoute where
  percent : Nat
  swaps : List OptimalSwap
deriving DecidableEq, Repr

/-- The top-level rate record (`UnoptimizedRate` in the source), with the
fields constructed by `getPrices` and read by `curveV1Merge` and
`buildTransaction`. -/
structure UnoptimizedRate where
  blockNumber : Nat
  network : Nat
  srcToken : String
  srcDecimals : Nat
  srcAmount : String
  destToken : String
  destDecimals : Nat
  destAmount : String
  bestRoute : List OptimalRoute
  gasCostUSD : String
  gasCost : String
  others : List String
  version : ParaSwapVersion
  side : SwapSide
  tokenTransferProxy : String
  contractAddress : String
deriving DecidableEq, Repr

/-- Default path leg, standing for the `undefined` a JS out-of-bounds index
would produce; every theorem that depends on a leg carries a non-emptiness
hypothesis so the default is never observed. -/
def dfltLeg : PathLeg := { tokenIn := "", tokenOut := "" }

/-- Default swap exchange (same role as `dfltLeg`). -/
def dfltEx : OptimalSwapExchange :=
  { exchange := "", srcAmount := "", destAmount := "", percent := 0,
    poolAddresses := [], data := { path := [], gasUSD := "" } }

/-- Default hop (same role as `dfltLeg`). -/
def dfltHop : OptimalSwap :=
  { srcToken := "", srcDecimals := 0, destToken := "", destDecimals := 0,
    swapExchanges := [] }

/-- Default route (same role as `dfltLeg`). -/
def dfltRoute : OptimalRoute := { percent := 0, swaps := [] }

/-- Character-wise lowercase, the embedding of
`String.prototype.toLowerCase()` on the ASCII strings involved. -/
def lowerStr (s : String) : String := String.mk (s.data.map Char.toLower)

/-! ## Gas-cost arithmetic

The source computes
`(parseFloat(a.gasUSD) + parseFloat(b.gasUSD)).toFixed(6)` in JavaScript
binary64 arithmetic.  This section embeds that computation bit-exactly, and
also carries the specification's own description of it (exact decimal
addition, no binary drift) as a separate reference definition so that the
two can be compared. -/

/-- Split a character list at the first `'.'`: integer digits, and the
fractional digits when a dot is present. -/
def splitDot : List Char → List Char × Option (List Char)
  | [] => ([], none)
  | c :: rest =>
    if c = '.' then ([], some rest)
    else
      let (i, f) := splitDot rest
      (c :: i, f)

/-- Digits of a decimal numeral to a natural number. -/
def digitsToNat (cs : List Char) : Nat :=
  cs.foldl (fun n c => n * 10 + (c.toNat - '0'.toNat)) 0

/-- Parse a non-negative fixed-point decimal string into a scaled integer:
`parseDecScaled s = (n, k)` means the value `n / 10 ^ k`. -/
def parseDecScaled (s : String) : Nat × Nat :=
  match splitDot s.data with
  | (i, none) => (digitsToNat i, 0)
  | (i, some f) => (digitsToNat i * 10 ^ f.length + digitsToNat f, f.length)

/-- Left-pad a numeral with zeros to 6 digits (fractional part of
`toFixed(6)` output). -/
def pad6 (s : String) : String :=
  String.mk (List.replicate (6 - s.length) '0') ++ s

/-- Follows the spec's words, not the source: the spec asserts that
"gas-cost summation uses decimal-string parsing to avoid binary
floating-point drift beyond the declared 6-digit rounding", i.e. the exact
decimal sum of the two operands rounded half-up to 6 fractional digits.
With exact value `n / d` (`d = 10 ^ (k1 + k2)`), the rounded numerator over
`10 ^ 6` is `⌊n / d * 10 ^ 6 + 1 / 2⌋ = (2 * n * 10 ^ 6 + d) / (2 * d)` in
`Nat` division.  Used only to compare the source's binary64 computation
(`jsGasSum` below) against this specification sentence. -/
def specExactGasSum6 (a b : String) : String :=
  let p1 := parseDecScaled a
  let p2 := parseDecScaled b
  let d := 10 ^ (p1.2 + p2.2)
  let n := p1.1 * 10 ^ p2.2 + p2.1 * 10 ^ p1.2
  let r := (2 * n * 10 ^ 6 + d) / (2 * d)
  toString (r / 10 ^ 6) ++ "." ++ pad6 (toString (r % 10 ^ 6))

/-- A non-negative JavaScript number as the gas pipeline produces it: NaN
(`parseFloat` of a non-numeric string), zero, or a positive binary float
with exact value `m * 2 ^ e`.  The exponent is unbounded, which agrees with
IEEE-754 binary64 on the whole normal finite range; after rounding,
`2 ^ 52 ≤ m < 2 ^ 53` as in binary64. -/
inductive JsFloat where
  | nan
  | zero
  | pos (m : Nat) (e : Int)
deriving DecidableEq, Repr

/-- Smallest `s` (up to the fuel) with `2 ^ 52 * d ≤ n * 2 ^ s`. -/
def scaleUpFp : Nat → Nat → Nat → Nat
  | 0, _, _ => 0
  | fuel + 1, n, d => if 2 ^ 52 * d ≤ n then 0 else scaleUpFp fuel (2 * n) d + 1

/-- Smallest `s` (up to the fuel) with `n < 2 ^ 53 * d * 2 ^ s`. -/
def scaleDownFp : Nat → Nat → Nat → Nat
  | 0, _, _ => 0
  | fuel + 1, n, d => if n < 2 ^ 53 * d then 0 else scaleDownFp fuel n (2 * d) + 1

/-- Scaling budget: covers every exponent the bounded gas-string domain can
reach, with ample slack. -/
def fpFuel : Nat := 1200

/-- Round the positive rational `n / d` to the nearest 53-bit significand
and exponent, ties to even (the IEEE-754 binary64 rounding of an exact
value, with unbounded exponent): scale into `[2 ^ 52, 2 ^ 53)`, divide,
round the remainder, and renormalize when rounding overflows the binade. -/
def roundPosRat (n d : Nat) : Nat × Int :=
  let s1 := scaleUpFp fpFuel n d
  let num := n * 2 ^ s1
  let s2 := scaleDownFp fpFuel num d
  let den := d * 2 ^ s2
  let q := num / den
  let r := num % den
  let m :=
    if 2 * r < den then q
    else if den < 2 * r then q + 1
    else if q % 2 = 0 then q else q + 1
  if m = 2 ^ 53 then (2 ^ 52, (s2 : Int) - (s1 : Int) + 1)
  else (m, (s2 : Int) - (s1 : Int))

/-- Leading run of decimal digits and the remaining characters. -/
def scanDigits : List Char → List Char × List Char
  | [] => ([], [])
  | c :: rest =>
    if c.isDigit then
      let p := scanDigits rest
      (c :: p.1, p.2)
    else ([], c :: rest)

/-- Longest numeric prefix in sign-less fixed-point notation (the shape
gas-cost strings take): integer digits and fractional digits, or `none`
when the prefix is not numeric (`parseFloat` yields NaN). -/
def scanFixed (cs : List Char) : Option (List Char × List Char) :=
  let p := scanDigits cs
  match p.2 with
  | '.' :: rest2 =>
    let f := scanDigits rest2
    if p.1.isEmpty ∧ f.1.isEmpty then none else some (p.1, f.1)
  | _ => if p.1.isEmpty then none else some (p.1, [])

/-- The source's `parseFloat` on sign-less fixed-notation numerals: the
decimal value of the longest numeric prefix, converted to the nearest binary64 value (ties
to even); NaN when no prefix is numeric. -/
def jsParseFloat (s : String) : JsFloat :=
  match scanFixed s.data with
  | none => .nan
  | some (ip, fp) =>
    let n := digitsToNat ip * 10 ^ fp.length + digitsToNat fp
    if n = 0 then .zero
    else
      let me := roundPosRat n (10 ^ fp.length)
      .pos me.1 me.2

/-- Binary64 addition of non-negative values: NaN propagates, zero is
neutral, and a sum of positives is the exact sum rounded to the nearest
binary64 value (IEEE-754 addition is correctly rounded). -/
def jsAdd (a b : JsFloat) : JsFloat :=
  match a, b with
  | .nan, _ => .nan
  | _, .nan => .nan
  | .zero, x => x
  | x, .zero => x
  | .pos m1 e1, .pos m2 e2 =>
    let emin := if e1 ≤ e2 then e1 else e2
    let j := m1 * 2 ^ (e1 - emin).toNat + m2 * 2 ^ (e2 - emin).toNat
    let me := roundPosRat j 1
    .pos me.1 (me.2 + emin)

/-- The rendering `Number.prototype.toFixed(6)` performs on a non-negative
number below `10 ^ 21`: the integer `n` with `n / 10 ^ 6` closest to the exact double value (ties
pick the larger `n`, i.e. `⌊x * 10 ^ 6 + 1 / 2⌋` for positive `x`),
rendered with exactly six fractional digits; NaN prints `"NaN"`. -/
def jsToFixed6 : JsFloat → String
  | .nan => "NaN"
  | .zero => "0.000000"
  | .pos m e =>
    let n6 :=
      if 0 ≤ e then m * 2 ^ e.toNat * 10 ^ 6
      else (2 * m * 10 ^ 6 + 2 ^ (-e).toNat) / 2 ^ ((-e).toNat + 1)
    toString (n6 / 10 ^ 6) ++ "." ++ pad6 (toString (n6 % 10 ^ 6))

/-- The source's gas summation, bit-exact:
`(parseFloat(a) + parseFloat(b)).toFixed(6)` in binary64 arithmetic. -/
def jsGasSum (a b : String) : String :=
  jsToFixed6 (jsAdd (jsParseFloat a) (jsParseFloat b))

/-- The gas-string domain on which the binary64 embedding above coincides
with JavaScript: the whole string is a sign-less fixed-notation numeral
with at most 15 integer and 15 fractional digits, so its value is zero or
normal and every sum stays far below the `10 ^ 21` threshold of
`toFixed`'s fixed-notation branch. -/
def isGasDec (s : String) : Bool :=
  match scanFixed s.data with
  | none => false
  | some (ip, fp) =>
    (ip.length + fp.length + (if fp.isEmpty then 0 else 1) == s.length) &&
      ip.length ≤ 15 && fp.length ≤ 15

/-! ## The route merger (`curveV1Merge`) -/

/-- Modelled from the spec: the mergeable pool family.  The source builds
this list from the keys of `CurveV1FactoryConfig` and
`CurveV1StableNgConfig`, configuration modules of this repository that are
not part of the embedded sources; the spec describes it as a fixed set of
venue identifiers (case-insensitive) sharing a path-concatenating pool
implementation. -/
def CurveV1FactoryForks : List String :=
  ["curvev1factory", "curvev1stableng"]

/-- A hop can participate in merging iff it has exactly one swap exchange and
that exchange's venue is in the mergeable family (the negation of the first
guard of the source's `forEach` body). -/
def isMergeableHop (s : OptimalSwap) : Bool :=
  s.swapExchanges.length == 1 &&
    CurveV1FactoryForks.contains
      (lowerStr (s.swapExchanges.headD dfltEx).exchange)

/-- Lower-cased output token of the last path leg of a hop's single
exchange (`_.last(path).tokenOut.toLowerCase()` in the source). -/
def lastTokenOut (s : OptimalSwap) : String :=
  lowerStr (((s.swapExchanges.headD dfltEx).data.path.getLastD dfltLeg).tokenOut)

/-- Lower-cased input token of the first path leg of a hop's single
exchange (`path[0].tokenIn.toLowerCase()` in the source). -/
def firstTokenIn (s : OptimalSwap) : String :=
  lowerStr (((s.swapExchanges.headD dfltEx).data.path.headD dfltLeg).tokenIn)

/-- The boundary-token test between the pending candidate `p` and the next
hop `s`. -/
def boundaryMatch (p s : OptimalSwap) : Bool :=
  lastTokenOut p == firstTokenIn s

/-- Fuse the next hop's single exchange `se` into the pending candidate's
exchange `e`: append the first path leg and the first pool address of the
absorbed exchange, sum the gas costs, and take over the destination
amount. -/
def fuseEx (e se : OptimalSwapExchange) : OptimalSwapExchange :=
  { e with
    data := { e.data with
      path := e.data.path ++ [se.data.path.headD dfltLeg],
      gasUSD := jsGasSum e.data.gasUSD se.data.gasUSD },
    poolAddresses := e.poolAddresses ++ [se.poolAddresses.headD ("")],
    destAmount := se.destAmount }

/-- Fuse hop `s` into the pending candidate `p`: rewrite `p`'s first
exchange through `fuseEx` and take over `s`'s destination token and
decimals. -/
def fuseHop (p s : OptimalSwap) : OptimalSwap :=
  { p with
    destToken := s.destToken,
    destDecimals := s.destDecimals,
    swapExchanges :=
      p.swapExchanges.modifyHead (fun e => fuseEx e (s.swapExchanges.headD dfltEx)) }

/-- One iteration of the source's `forEach`.  The state is the emitted
output list together with the `lastExchange` flag; in the source
`lastExchange` is a reference to the most recently emitted hop, so an
in-place fusion of the pending candidate is a rewrite of the last emitted
element. -/
def mergeStep (st : List OptimalSwap × Bool) (s : OptimalSwap) :
    List OptimalSwap × Bool :=
  if isMergeableHop s then
    if st.2 && boundaryMatch (st.1.getLastD dfltHop) s then
      (st.1.dropLast ++ [fuseHop (st.1.getLastD dfltHop) s], true)
    else
      (st.1 ++ [s], true)
  else
    (st.1 ++ [s], false)

/-- The source's `fixRoute`: fold the merge step over a route's hop
sequence, starting with no pending candidate. -/
def fixRoute (swaps : List OptimalSwap) : List OptimalSwap :=
  (swaps.foldl mergeStep ([], false)).1

/-- The route merger `curveV1Merge`: identity unless the version tag is V6,
otherwise rewrite every route's hop sequence through `fixRoute`, leaving the
route percent and all top-level fields unchanged. -/
def curveV1Merge (or : UnoptimizedRate) : UnoptimizedRate :=
  if or.version ≠ ParaSwapVersion.V6 then or
  else
    { or with
      bestRoute := or.bestRoute.map fun r => { r with swaps := fixRoute r.swaps } }

/-! ## Price-curve sampling and quote selection (`getPrices`) -/

/-- The fixed sample-count constant (`const chunks = 10`). -/
def chunks : Nat := 10

/-- The price-curve sample amounts:
`_.range(0, chunks + 1).map(i => (amount * BigInt(i)) / BigInt(chunks))`.
`bigint` division on non-negative operands is floor division, so the map is
`Nat` multiplication followed by `Nat` division. -/
def sampleAmounts (amount : Nat) : List Nat :=
  (List.range (chunks + 1)).map fun i => amount * i / chunks

/-- A token: address and decimal precision. -/
structure Token where
  address : String
  decimals : Nat
deriving DecidableEq, Repr

/-- One per-venue quote returned by the pricing collaborator
(`getPoolPrices`): venue identifier, one output amount per sample point, the
opaque venue payload and the pool addresses touched. -/
structure Quote where
  exchange : String
  prices : List Nat
  data : ExchangeData
  poolAddresses : List String
deriving DecidableEq, Repr

/-- Default quote (JS `poolPrices[0]` on an empty array would be
`undefined`; `getPricesCore` rejects the empty list before the default could
be observed). -/
def dfltQuote : Quote :=
  { exchange := "", prices := [], data := { path := [], gasUSD := "" },
    poolAddresses := [] }

/-- Error raised by `getPrices` when every venue declines
(`throw new Error('Fail to get price for ...')`, the spec's
`NoLiquidityError`). -/
inductive PriceError where
  | noLiquidity
deriving DecidableEq, Repr

/-- The pure rate construction of `getPrices` (source lines 140-197): pick
the first quote, read the terminal sample as the quoted counter-amount,
derive `srcAmount`/`destAmount` from the trade side, and build the
single-route, single-swap, single-exchange rate with percent 100 at every
level.  The proxy and contract addresses come from the helper's static
configuration and are taken as parameters. -/
def buildUnoptimizedRate (network blockNumber : Nat) (tokenFrom tokenTo : Token)
    (amount : Nat) (side : SwapSide) (poolPrices : List Quote)
    (tokenTransferProxyAddress augustusAddress : String) : UnoptimizedRate :=
  let finalPrice := poolPrices.headD dfltQuote
  let quoteAmount := finalPrice.prices.getD chunks 0
  let srcAmount := toString (match side with | .SELL => amount | .BUY => quoteAmount)
  let destAmount := toString (match side with | .SELL => quoteAmount | .BUY => amount)
  { blockNumber := blockNumber,
    network := network,
    srcToken := tokenFrom.address,
    srcDecimals := tokenFrom.decimals,
    srcAmount := srcAmount,
    destToken := tokenTo.address,
    destDecimals := tokenTo.decimals,
    destAmount := destAmount,
    bestRoute :=
      [{ percent := 100,
         swaps :=
           [{ srcToken := tokenFrom.address,
              srcDecimals := tokenFrom.decimals,
              destToken := tokenTo.address,
              destDecimals := tokenTo.decimals,
              swapExchanges :=
                [{ exchange := finalPrice.exchange,
                   srcAmount := srcAmount,
                   destAmount := destAmount,
                   percent := 100,
                   poolAddresses := finalPrice.poolAddresses,
                   data := finalPrice.data }] }] }],
    gasCostUSD := "0",
    gasCost := "0",
    others := [],
    version := ParaSwapVersion.V5,
    side := side,
    tokenTransferProxy := tokenTransferProxyAddress,
    contractAddress := augustusAddress }

/-- The embedding of `getPrices` up to the external rate optimizer: fail with the
no-liquidity error when the pricing collaborator returned no quote
(`!poolPrices || poolPrices.length == 0`), otherwise construct the rate. -/
def getPricesCore (network blockNumber : Nat) (tokenFrom tokenTo : Token)
    (amount : Nat) (side : SwapSide) (poolPrices : List Quote)
    (tokenTransferProxyAddress augustusAddress : String) :
    Except PriceError UnoptimizedRate :=
  if poolPrices.length = 0 then .error .noLiquidity
  else
    .ok (buildUnoptimizedRate network blockNumber tokenFrom tokenTo amount side
      poolPrices tokenTransferProxyAddress augustusAddress)

/-! ## Transaction assembly (`buildTransaction`) -/

/-- The null partner address (`NULL_ADDRESS` constant). -/
def NULL_ADDRESS : String := "0x0000000000000000000000000000000000000000"

/-- Failure of transaction assembly: a venue claims preprocessing support
but ships no `getTokenFromAddress` resolver (the source's thrown `Error`,
the spec's `ConfigurationError`). -/
inductive BuildError where
  | configurationError
deriving DecidableEq, Repr

/-- A venue's `getTokenFromAddress` reverse token lookup. -/
def TokenResolver : Type := String → Token

/-- A venue's `preProcessTransaction` collaborator, abstracted at its
interface boundary: it receives the exchange record, the trade side, the
slippage inputs (the caller's `minMaxAmount` and the quoted reference-amount
string whose `BigNumber` quotient is the slippage factor) and the
transaction origin, and returns the possibly-rewritten exchange together
with an optional proposed deadline (`txInfo.deadline`).  The remaining
arguments of the source call (execution contract address, direct-method
flag, version, recipient) are fixed inputs folded into the collaborator
value. -/
def PreProcessFn : Type :=
  OptimalSwapExchange → SwapSide → Nat × String → String →
    OptimalSwapExchange × Option Nat

/-- Preprocessing of one swap exchange (the body of the innermost map of
`buildTransaction`): a venue without the preprocessing capability passes the
exchange through unchanged; a venue with the capability but without the
token resolver is a configuration error; otherwise the collaborator runs. -/
def preprocessOne (pp : String → Option PreProcessFn)
    (resolver : String → Option TokenResolver) (side : SwapSide)
    (slip : Nat × String) (txOrigin : String) (se : OptimalSwapExchange) :
    Except BuildError (OptimalSwapExchange × Option Nat) :=
  match pp se.exchange with
  | none => .ok (se, none)
  | some f =>
    match resolver se.exchange with
    | none => .error .configurationError
    | some _ => .ok (f se side slip txOrigin)

/-- Preprocess every exchange of a hop in positional order, collecting the
proposed deadlines; the first failure fails the whole traversal (the
source's `Promise.all` over concurrently dispatched, order-preserved
tasks). -/
def processExchanges (pp : String → Option PreProcessFn)
    (resolver : String → Option TokenResolver) (side : SwapSide)
    (slip : Nat × String) (txOrigin : String) :
    List OptimalSwapExchange →
      Except BuildError (List OptimalSwapExchange × List (Option Nat))
  | [] => .ok ([], [])
  | se :: rest =>
    match preprocessOne pp resolver side slip txOrigin se with
    | .error e => .error e
    | .ok r =>
      match processExchanges pp resolver side slip txOrigin rest with
      | .error e => .error e
      | .ok rs => .ok (r.1 :: rs.1, r.2 :: rs.2)

/-- Preprocess every hop of a route, rewriting each hop's exchange list in
place. -/
def processSwaps (pp : String → Option PreProcessFn)
    (resolver : String → Option TokenResolver) (side : SwapSide)
    (slip : Nat × String) (txOrigin : String) :
    List OptimalSwap →
      Except BuildError (List OptimalSwap × List (Option Nat))
  | [] => .ok ([], [])
  | sw :: rest =>
    match processExchanges pp resolver side slip txOrigin sw.swapExchanges with
    | .error e => .error e
    | .ok r =>
      match processSwaps pp resolver side slip txOrigin rest with
      | .error e => .error e
      | .ok rs => .ok ({ sw with swapExchanges := r.1 } :: rs.1, r.2 ++ rs.2)

/-- Preprocess every route of the rate. -/
def processRoutes (pp : String → Option PreProcessFn)
    (resolver : String → Option TokenResolver) (side : SwapSide)
    (slip : Nat × String) (txOrigin : String) :
    List OptimalRoute →
      Except BuildError (List OptimalRoute × List (Option Nat))
  | [] => .ok ([], [])
  | r :: rest =>
    match processSwaps pp resolver side slip txOrigin r.swaps with
    | .error e => .error e
    | .ok s =>
      match processRoutes pp resolver side slip txOrigin rest with
      | .error e => .error e
      | .ok rs => .ok ({ r with swaps := s.1 } :: rs.1, s.2 ++ rs.2)

/-- One deadline-reconciliation update (the source's
`deadline = txInfo.deadline && Number(txInfo.deadline) < deadline ?
Number(txInfo.deadline) : deadline`): an absent proposal and the falsy
proposal `0` leave the deadline unchanged; a present non-zero proposal
lowers it when strictly smaller. -/
def reconcileStep (deadline : Nat) (proposed : Option Nat) : Nat :=
  match proposed with
  | none => deadline
  | some v => if v ≠ 0 ∧ v < deadline then v else deadline

/-- Reconcile the deadline across every proposal, in traversal order (the
end result is order-independent: it is the minimum of the initial value and
the present non-zero proposals). -/
def reconcileDeadline (initial : Nat) (proposals : List (Option Nat)) : Nat :=
  proposals.foldl reconcileStep initial

/-- The transaction build request assembled by `buildTransaction` and
handed to the external transaction-building collaborator. -/
structure TxParams where
  priceRoute : UnoptimizedRate
  minMaxAmount : String
  userAddress : String
  partnerAddress : String
  partnerFeePercent : String
  deadline : String
  uuid : String
deriving DecidableEq, Repr

/-- The embedding of `buildTransaction`: start from the 10-minute default deadline, run
per-exchange preprocessing over the whole rate (all-or-nothing), reconcile
the proposed deadlines, and assemble the payload.  `nowSeconds` stands for
`Math.floor(Date.now() / 1000)` and `uuidValue` for the generated `uuid()`;
both are environment inputs of the source. -/
def buildTransactionCore (pp : String → Option PreProcessFn)
    (resolver : String → Option TokenResolver) (nowSeconds : Nat)
    (priceRoute : UnoptimizedRate) (minMaxAmount : Nat) (userAddress : String)
    (uuidValue : String) : Except BuildError TxParams :=
  let deadline0 := nowSeconds + 10 * 60
  let slip : Nat × String :=
    (minMaxAmount,
      match priceRoute.side with
      | .SELL => priceRoute.destAmount
      | .BUY => priceRoute.srcAmount)
  match processRoutes pp resolver priceRoute.side slip userAddress
      priceRoute.bestRoute with
  | .error e => .error e
  | .ok res =>
    .ok { priceRoute := { priceRoute with bestRoute := res.1 },
          minMaxAmount := toString minMaxAmount,
          userAddress := userAddress,
          partnerAddress := NULL_ADDRESS,
          partnerFeePercent := "0",
          deadline := toString (reconcileDeadline deadline0 res.2),
          uuid := uuidValue }

/-! ## Predicates used by the merge-idempotence development -/

/-- Two adjacent hops the merge step will never fuse: whenever both are
single-exchange mergeable-family hops, their boundary tokens mismatch. -/
def NoFuse (a b : OptimalSwap) : Prop :=
  isMergeableHop a = true → isMergeableHop b = true → boundaryMatch a b = false

/-- Invariant of the merge fold state: the emitted list is fuse-free, and
the `lastExchange` flag tells whether the last emitted hop is a mergeable
pending candidate. -/
def StInv (st : List OptimalSwap × Bool) : Prop :=
  List.Chain' NoFuse st.1 ∧
    (st.2 = true → ∃ p, st.1.getLast? = some p ∧ isMergeableHop p = true) ∧
    (st.2 = false → ∀ p, st.1.getLast? = some p → isMergeableHop p = false)

/-! ## Concrete instances used by witnesses and counterexamples -/

/-- First hop's single exchange of the two-hop merge scenario: one path leg
`0xA → 0xB`. -/
def exC1e1 : OptimalSwapExchange :=
  { exchange := "CurveV1Factory", srcAmount := "100", destAmount := "200",
    percent := 100, poolAddresses := ["p1"],
    data := { path := [{ tokenIn := "0xA", tokenOut := "0xB" }],
              gasUSD := "1.5" } }

/-- Second hop's single exchange of the two-hop merge scenario: two path
legs `0xB → 0xC` and `0xC → 0xD`, two pool addresses. -/
def exC1e2 : OptimalSwapExchange :=
  { exchange := "CurveV1StableNg", srcAmount := "200", destAmount := "300",
    percent := 100, poolAddresses := ["p2", "p3"],
    data := { path := [{ tokenIn := "0xB", tokenOut := "0xC" },
                       { tokenIn := "0xC", tokenOut := "0xD" }],
              gasUSD := "2.25" } }

/-- First hop of the two-hop merge scenario. -/
def exC1h1 : OptimalSwap :=
  { srcToken := "0xA", srcDecimals := 18, destToken := "0xB", destDecimals := 6,
    swapExchanges := [exC1e1] }

/-- Second hop of the two-hop merge scenario. -/
def exC1h2 : OptimalSwap :=
  { srcToken := "0xB", srcDecimals := 6, destToken := "0xD", destDecimals := 8,
    swapExchanges := [exC1e2] }

/-- A V6 rate whose single route consists of the two adjacent mergeable
hops above. -/
def exC1rate : UnoptimizedRate :=
  { blockNumber := 1, network := 1, srcToken := "0xA", srcDecimals := 18,
    srcAmount := "100", destToken := "0xD", destDecimals := 8,
    destAmount := "300",
    bestRoute := [{ percent := 100, swaps := [exC1h1, exC1h2] }],
    gasCostUSD := "0", gasCost := "0", others := [],
    version := ParaSwapVersion.V6, side := SwapSide.SELL,
    tokenTransferProxy := "0xproxy", contractAddress := "0xaugustus" }

/-- First hop of the gas-drift merge scenario: single leg `0xA → 0xB`,
gas cost `1.0000015` USD. -/
def exC1g1 : OptimalSwap :=
  { srcToken := "0xA", srcDecimals := 18, destToken := "0xB", destDecimals := 6,
    swapExchanges :=
      [{ exchange := "CurveV1Factory", srcAmount := "100", destAmount := "200",
         percent := 100, poolAddresses := ["p1"],
         data := { path := [{ tokenIn := "0xA", tokenOut := "0xB" }],
                   gasUSD := "1.0000015" } }] }

/-- Second hop of the gas-drift merge scenario: single leg `0xB → 0xC`,
gas cost `0` USD. -/
def exC1g2 : OptimalSwap :=
  { srcToken := "0xB", srcDecimals := 6, destToken := "0xC", destDecimals := 8,
    swapExchanges :=
      [{ exchange := "CurveV1StableNg", srcAmount := "200", destAmount := "300",
         percent := 100, poolAddresses := ["p2"],
         data := { path := [{ tokenIn := "0xB", tokenOut := "0xC" }],
                   gasUSD := "0" } }] }

/-- A V6 rate whose single route consists of the two gas-drift hops. -/
def exC1grate : UnoptimizedRate :=
  { blockNumber := 1, network := 1, srcToken := "0xA", srcDecimals := 18,
    srcAmount := "100", destToken := "0xC", destDecimals := 8,
    destAmount := "300",
    bestRoute := [{ percent := 100, swaps := [exC1g1, exC1g2] }],
    gasCostUSD := "0", gasCost := "0", others := [],
    version := ParaSwapVersion.V6, side := SwapSide.SELL,
    tokenTransferProxy := "0xproxy", contractAddress := "0xaugustus" }

/-- A V5 rate (not merge-eligible). -/
def exC4rate : UnoptimizedRate :=
  { blockNumber := 2, network := 1, srcToken := "0xA", srcDecimals := 18,
    srcAmount := "100", destToken := "0xB", destDecimals := 6,
    destAmount := "200",
    bestRoute := [{ percent := 100, swaps := [exC1h1, exC1h2] }],
    gasCostUSD := "0", gasCost := "0", others := [],
    version := ParaSwapVersion.V5, side := SwapSide.SELL,
    tokenTransferProxy := "0xproxy", contractAddress := "0xaugustus" }

/-- A rate with a single exchange on venue `DexOne`, used by the deadline
scenarios. -/
def exC7rate : UnoptimizedRate :=
  { blockNumber := 3, network := 1, srcToken := "0xA", srcDecimals := 18,
    srcAmount := "100", destToken := "0xB", destDecimals := 6,
    destAmount := "200",
    bestRoute :=
      [{ percent := 100,
         swaps :=
           [{ srcToken := "0xA", srcDecimals := 18, destToken := "0xB",
              destDecimals := 6,
              swapExchanges :=
                [{ exchange := "DexOne", srcAmount := "100",
                   destAmount := "200", percent := 100,
                   poolAddresses := ["p1"],
                   data := { path := [], gasUSD := "0" } }] }] }],
    gasCostUSD := "0", gasCost := "0", others := [],
    version := ParaSwapVersion.V6, side := SwapSide.SELL,
    tokenTransferProxy := "0xproxy", contractAddress := "0xaugustus" }

/-- A resolver that can resolve every address for every venue. -/
def exC7resolver : String → Option TokenResolver :=
  fun _ => some fun a => { address := a, decimals := 18 }

/-- Venue `DexOne` supports preprocessing and proposes the deadline `0`
(a falsy proposal). -/
def exC7ppZero : String → Option PreProcessFn :=
  fun v => if v = "DexOne" then some (fun se _ _ _ => (se, some 0)) else none

/-- Venue `DexOne` supports preprocessing and proposes the deadline `500`. -/
def exC7pp : String → Option PreProcessFn :=
  fun v => if v = "DexOne" then some (fun se _ _ _ => (se, some 500)) else none

/-- The payload assembled for `exC7rate` under `exC7pp` at time `1000000`:
the venue-proposed deadline `500` undercuts the default `1000600`. -/
def exC7tx : TxParams :=
  { priceRoute := exC7rate, minMaxAmount := "5", userAddress := "0xuser",
    partnerAddress := NULL_ADDRESS, partnerFeePercent := "0",
    deadline := "500", uuid := "uid-1" }

/-- Venue `DexPre` claims preprocessing support; the resolver below ships
no token lookup for it. -/
def exC8pp : String → Option PreProcessFn :=
  fun v => if v = "DexPre" then some (fun se _ _ _ => (se, none)) else none

/-- A resolver table with no entry for any venue. -/
def exC8resolver : String → Option TokenResolver := fun _ => none

/-- A rate with a single exchange on the misconfigured venue `DexPre`. -/
def exC8rate : UnoptimizedRate :=
  { blockNumber := 4, network := 1, srcToken := "0xA", srcDecimals := 18,
    srcAmount := "100", destToken := "0xB", destDecimals := 6,
    destAmount := "200",
    bestRoute :=
      [{ percent := 100,
         swaps :=
           [{ srcToken := "0xA", srcDecimals := 18, destToken := "0xB",
              destDecimals := 6,
              swapExchanges :=
                [{ exchange := "DexPre", srcAmount := "100",
                   destAmount := "200", percent := 100,
                   poolAddresses := ["p1"],
                   data := { path := [], gasUSD := "0" } }] }] }],
    gasCostUSD := "0", gasCost := "0", others := [],
    version := ParaSwapVersion.V6, side := SwapSide.SELL,
    tokenTransferProxy := "0xproxy", contractAddress := "0xaugustus" }

/-! ## Helper lemmas about the merge fold -/

/-- Fusing a hop into a pending candidate does not change whether the
candidate is a mergeable hop: the exchange count and the venue identifier
are preserved. -/
theorem isMergeableHop_fuseHop (p s : OptimalSwap) :
    isMergeableHop (fuseHop p s) = isMergeableHop p := by
  cases hp : p.swapExchanges with
  | nil => simp [isMergeableHop, fuseHop, hp]
  | cons e rest => simp [isMergeableHop, fuseHop, fuseEx, hp]

/-- Fusing a hop into a pending candidate whose boundary matched does not
change the candidate's first input token. -/
theorem firstTokenIn_fuseHop (p s : OptimalSwap) (hp : isMergeableHop p = true)
    (hm : boundaryMatch p s = true) :
    firstTokenIn (fuseHop p s) = firstTokenIn p := by
  have hlen : p.swapExchanges.length == 1 := by
    have := hp
    unfold isMergeableHop at this
    exact (Bool.and_eq_true _ _ |>.mp this).1
  cases hpe : p.swapExchanges with
  | nil => rw [hpe] at hlen; cases hlen
  | cons e rest =>
    cases hpath : e.data.path with
    | cons l₀ rest' =>
      simp [firstTokenIn, fuseHop, fuseEx, hpe, hpath]
    | nil =>
      have hout : lastTokenOut p = "" := by
        simp [lastTokenOut, hpe, hpath, dfltLeg, lowerStr]
      have hin : firstTokenIn s = "" := by
        have : lastTokenOut p = firstTokenIn s := by
          have := hm
          unfold boundaryMatch at this
          exact beq_iff_eq.mp this
        rw [hout] at this
        exact this.symm
      have hpin : firstTokenIn p = "" := by
        simp [firstTokenIn, hpe, hpath, dfltLeg, lowerStr]
      have hstep : firstTokenIn (fuseHop p s) = firstTokenIn s := by
        simp [firstTokenIn, fuseHop, fuseEx, hpe, hpath]
      rw [hpin, hstep, hin]

/-- Fusing preserves the impossibility of fusing with the hop on the left:
if the already-emitted left neighbour could not fuse with the pending
candidate, it still cannot fuse with the enlarged candidate. -/
theorem noFuse_fuseHop {x p s : OptimalSwap}
    (hm : boundaryMatch p s = true) (hx : NoFuse x p) : NoFuse x (fuseHop p s) := by
  intro hmx hmf
  rw [isMergeableHop_fuseHop] at hmf
  have hfalse := hx hmx hmf
  unfold boundaryMatch at hfalse ⊢
  rw [firstTokenIn_fuseHop p s hmf hm]
  exact hfalse

/-- On a state whose last emitted hop cannot fuse with the incoming hop,
the merge step emits the incoming hop unchanged. -/
theorem mergeStep_no_fuse (acc : List OptimalSwap) (a s : OptimalSwap)
    (h : NoFuse a s) :
    mergeStep (acc ++ [a], isMergeableHop a) s =
      (acc ++ [a] ++ [s], isMergeableHop s) := by
  unfold mergeStep
  cases hs : isMergeableHop s with
  | false => simp [hs]
  | true =>
    cases ha : isMergeableHop a with
    | false => simp [ha, List.getLastD_concat]
    | true =>
      have hb := h ha hs
      simp [ha, hs, List.getLastD_concat, hb]

/-- Folding the merge step over a fuse-free suffix appends it unchanged. -/
theorem foldl_mergeStep_chain :
    ∀ (rest acc : List OptimalSwap) (a : OptimalSwap),
      List.Chain' NoFuse (a :: rest) →
      (rest.foldl mergeStep (acc ++ [a], isMergeableHop a)).1 = acc ++ a :: rest := by
  intro rest
  induction rest with
  | nil => intro acc a _; simp
  | cons b rest' ih =>
    intro acc a hch
    obtain ⟨hab, hch'⟩ := List.chain'_cons.mp hch
    rw [List.foldl_cons, mergeStep_no_fuse acc a b hab]
    have := ih (acc ++ [a]) b hch'
    rw [this]
    simp

/-- A fuse-free hop sequence is a fixed point of `fixRoute`. -/
theorem fixRoute_of_chain {l : List OptimalSwap} (h : List.Chain' NoFuse l) :
    fixRoute l = l := by
  cases l with
  | nil => rfl
  | cons a rest =>
    unfold fixRoute
    rw [List.foldl_cons]
    have h1 : mergeStep ([], false) a = ([] ++ [a], isMergeableHop a) := by
      unfold mergeStep
      cases ha : isMergeableHop a <;> simp [ha]
    rw [h1, foldl_mergeStep_chain rest [] a h]
    simp

/-- The merge step preserves the fold-state invariant. -/
theorem stInv_mergeStep {st : List OptimalSwap × Bool} (hinv : StInv st)
    (s : OptimalSwap) : StInv (mergeStep st s) := by
  obtain ⟨hc, hT, hF⟩ := hinv
  unfold mergeStep
  cases hs : isMergeableHop s with
  | false =>
    simp only [Bool.false_eq_true, if_false]
    refine ⟨?_, by simp, ?_⟩
    · rw [List.chain'_append]
      refine ⟨hc, List.chain'_singleton s, ?_⟩
      intro x hx y hy
      simp only [List.head?_cons, Option.mem_def, Option.some.injEq] at hy
      subst hy
      intro _ hms
      rw [hs] at hms
      cases hms
    · intro _ p hp
      rw [List.getLast?_concat] at hp
      injection hp with hp
      rw [← hp]
      exact hs
  | true =>
    simp only [if_true]
    cases hcond : (st.2 && boundaryMatch (st.1.getLastD dfltHop) s) with
    | true =>
      simp only [if_true]
      obtain ⟨hact, hbm⟩ := Bool.and_eq_true _ _ |>.mp hcond
      obtain ⟨p, hlast, hpm⟩ := hT hact
      have hgd : st.1.getLastD dfltHop = p := by
        rw [List.getLastD_eq_getLast?, hlast]
        rfl
      have hsplit : st.1.dropLast ++ [p] = st.1 :=
        List.dropLast_append_getLast? p hlast
      rw [hgd] at hbm ⊢
      refine ⟨?_, ?_, by simp⟩
      · rw [← hsplit, List.chain'_append] at hc
        obtain ⟨hc1, _, hrel⟩ := hc
        rw [List.chain'_append]
        refine ⟨hc1, List.chain'_singleton _, ?_⟩
        intro x hx y hy
        simp only [List.head?_cons, Option.mem_def, Option.some.injEq] at hy
        subst hy
        exact noFuse_fuseHop hbm (hrel x hx p (by simp))
      · intro _
        refine ⟨fuseHop p s, ?_, ?_⟩
        · rw [List.getLast?_concat]
        · rw [isMergeableHop_fuseHop]
          exact hpm
    | false =>
      simp only [Bool.false_eq_true, if_false]
      refine ⟨?_, ?_, by simp⟩
      · rw [List.chain'_append]
        refine ⟨hc, List.chain'_singleton s, ?_⟩
        intro x hx y hy
        simp only [List.head?_cons, Option.mem_def, Option.some.injEq] at hy
        subst hy
        cases hact : st.2 with
        | false =>
          intro hmx _
          rw [hF hact x hx] at hmx
          cases hmx
        | true =>
          obtain ⟨p, hlast, _⟩ := hT hact
          have hxp : x = p := by
            rw [hlast] at hx
            injection hx with hx
            exact hx.symm
          subst hxp
          have hgd : st.1.getLastD dfltHop = x := by
            rw [List.getLastD_eq_getLast?, hlast]
            rfl
          rw [hact, hgd] at hcond
          intro _ _
          simpa using hcond
      · intro _
        refine ⟨s, ?_, hs⟩
        rw [List.getLast?_concat]

/-- The whole merge fold preserves the state invariant. -/
theorem stInv_foldl (l : List OptimalSwap) {st : List OptimalSwap × Bool}
    (h : StInv st) : StInv (l.foldl mergeStep st) := by
  induction l generalizing st with
  | nil => exact h
  | cons a l ih => exact ih (stInv_mergeStep h a)

/-- The output of `fixRoute` is fuse-free: no two adjacent output hops are
both mergeable with matching boundary tokens. -/
theorem chain_fixRoute (l : List OptimalSwap) :
    List.Chain' NoFuse (fixRoute l) := by
  have hinit : StInv (([] : List OptimalSwap), false) :=
    ⟨List.chain'_nil, by simp, by simp⟩
  exact (stInv_foldl l hinit).1

/-- Idempotence of `fixRoute`. -/
theorem fixRoute_idem (l : List OptimalSwap) :
    fixRoute (fixRoute l) = fixRoute l :=
  fixRoute_of_chain (chain_fixRoute l)

/-- Each merge step emits at most one new hop. -/
theorem mergeStep_length_le (st : List OptimalSwap × Bool) (s : OptimalSwap) :
    (mergeStep st s).1.length ≤ st.1.length + 1 := by
  unfold mergeStep
  cases hs : isMergeableHop s with
  | false => simp
  | true =>
    cases hcond : (st.2 && boundaryMatch (st.1.getLastD dfltHop) s) with
    | false => simp
    | true =>
      simp only [if_true, List.length_append, List.length_dropLast,
        List.length_singleton]
      omega

/-- The merge fold emits at most one hop per input hop. -/
theorem foldl_mergeStep_length (l : List OptimalSwap) :
    ∀ st : List OptimalSwap × Bool,
      ((l.foldl mergeStep st).1).length ≤ st.1.length + l.length := by
  induction l with
  | nil => intro st; simp
  | cons a l ih =>
    intro st
    rw [List.foldl_cons]
    have h1 := ih (mergeStep st a)
    have h2 := mergeStep_length_le st a
    simp only [List.length_cons]
    omega

/-- Hop-count bound: `fixRoute` never increases the number of hops. -/
theorem fixRoute_length_le (l : List OptimalSwap) :
    (fixRoute l).length ≤ l.length := by
  have := foldl_mergeStep_length l ([], false)
  simpa [fixRoute] using this

/-! ## Claim theorems about the route merger -/

/-- C2: the route merger is idempotent: for every rate, applying
`curveV1Merge` twice yields the same result as applying it once. -/
theorem curveV1Merge_idempotent (or : UnoptimizedRate) :
    curveV1Merge (curveV1Merge or) = curveV1Merge or := by
  by_cases hv : or.version = ParaSwapVersion.V6
  · unfold curveV1Merge
    simp only [hv, ne_eq, not_true_eq_false, if_false]
    congr 1
    rw [List.map_map]
    apply List.map_congr_left
    intro r _
    show ({ r with swaps := fixRoute (fixRoute r.swaps) } : OptimalRoute)
        = { r with swaps := fixRoute r.swaps }
    rw [fixRoute_idem]
  · unfold curveV1Merge
    simp [hv]

/-- C3: the route merger leaves the total input amount, the total output
amount, every top-level rate field, the number of routes, and each route's
percent unchanged; within each route it can only reduce (never increase)
the number of hops. -/
theorem curveV1Merge_frame (or : UnoptimizedRate) :
    (curveV1Merge or).blockNumber = or.blockNumber ∧
    (curveV1Merge or).network = or.network ∧
    (curveV1Merge or).srcToken = or.srcToken ∧
    (curveV1Merge or).srcDecimals = or.srcDecimals ∧
    (curveV1Merge or).srcAmount = or.srcAmount ∧
    (curveV1Merge or).destToken = or.destToken ∧
    (curveV1Merge or).destDecimals = or.destDecimals ∧
    (curveV1Merge or).destAmount = or.destAmount ∧
    (curveV1Merge or).gasCostUSD = or.gasCostUSD ∧
    (curveV1Merge or).gasCost = or.gasCost ∧
    (curveV1Merge or).others = or.others ∧
    (curveV1Merge or).version = or.version ∧
    (curveV1Merge or).side = or.side ∧
    (curveV1Merge or).tokenTransferProxy = or.tokenTransferProxy ∧
    (curveV1Merge or).contractAddress = or.contractAddress ∧
    (curveV1Merge or).bestRoute.length = or.bestRoute.length ∧
    (curveV1Merge or).bestRoute.map OptimalRoute.percent =
      or.bestRoute.map OptimalRoute.percent ∧
    List.Forall₂ (· ≤ ·)
      ((curveV1Merge or).bestRoute.map fun r => r.swaps.length)
      (or.bestRoute.map fun r => r.swaps.length) := by
  by_cases hv : or.version = ParaSwapVersion.V6
  · unfold curveV1Merge
    simp only [hv, ne_eq, not_true_eq_false, if_false]
    refine ⟨trivial, trivial, trivial, trivial, trivial, trivial, trivial,
      trivial, trivial, trivial, trivial, trivial, trivial, trivial, trivial,
      by simp, ?_, ?_⟩
    · rw [List.map_map]
      rfl
    · rw [List.map_map]
      rw [List.forall₂_map_right_iff, List.forall₂_map_left_iff]
      rw [List.forall₂_same]
      intro r _
      exact fixRoute_length_le r.swaps
  · unfold curveV1Merge
    simp only [hv, ne_eq, not_false_eq_true, if_true]
    refine ⟨trivial, trivial, trivial, trivial, trivial, trivial, trivial,
      trivial, trivial, trivial, trivial, trivial, trivial, trivial, trivial,
      trivial, trivial, ?_⟩
    rw [List.forall₂_map_right_iff, List.forall₂_map_left_iff]
    rw [List.forall₂_same]
    intro r _
    exact le_refl _

/-- C4: for every rate whose version tag is not the merge-eligible V6
version, the route merger returns its input entirely unchanged. -/
theorem curveV1Merge_non_v6_id (or : UnoptimizedRate)
    (h : or.version ≠ ParaSwapVersion.V6) : curveV1Merge or = or := by
  unfold curveV1Merge
  simp [h]

/-- C4 witness: the merger is the identity on a concrete V5 rate. -/
theorem curveV1Merge_non_v6_id_witness : curveV1Merge exC4rate = exC4rate :=
  curveV1Merge_non_v6_id exC4rate (by decide)

/-- C1 (amended): for a merge-eligible (V6) rate whose route consists of two
adjacent hops, each with exactly one swap exchange from the mergeable family
and with matching boundary tokens (case-insensitively), and whose gas-cost
fields are fixed-notation decimal numerals in the embedded binary64 domain,
the merger produces a single hop whose gas-cost-in-USD string is
`(parseFloat(g1) + parseFloat(g2)).toFixed(6)` computed in binary64
arithmetic (which can differ in the sixth fractional digit from the exact
decimal sum rounded to 6 digits, see the counterexample), whose path is the
first hop's path extended with only the first leg of the second hop's path
(the full ordered concatenation whenever the second hop's path is a single
leg, with no duplication of the boundary token), whose pool-address list is
extended with the second hop's first pool address, and whose destination
token, decimals, and destination amount are taken from the second hop.  The
two `isGasDec` hypotheses only scope the claim to the gas-string domain on
which `jsGasSum` is the bit-exact embedding of the source's computation. -/
theorem curveV1Merge_adjacent_pair (or : UnoptimizedRate) (pct : Nat)
    (h1 h2 : OptimalSwap) (e1 e2 : OptimalSwapExchange)
    (hv : or.version = ParaSwapVersion.V6)
    (hroute : or.bestRoute = [{ percent := pct, swaps := [h1, h2] }])
    (he1 : h1.swapExchanges = [e1]) (he2 : h2.swapExchanges = [e2])
    (hf1 : CurveV1FactoryForks.contains (lowerStr e1.exchange) = true)
    (hf2 : CurveV1FactoryForks.contains (lowerStr e2.exchange) = true)
    (hb : lowerStr ((e1.data.path.getLastD dfltLeg).tokenOut) =
      lowerStr ((e2.data.path.headD dfltLeg).tokenIn))
    (_hg1 : isGasDec e1.data.gasUSD = true)
    (_hg2 : isGasDec e2.data.gasUSD = true) :
    (curveV1Merge or).bestRoute =
      [{ percent := pct,
         swaps :=
           [{ srcToken := h1.srcToken,
              srcDecimals := h1.srcDecimals,
              destToken := h2.destToken,
              destDecimals := h2.destDecimals,
              swapExchanges :=
                [{ exchange := e1.exchange,
                   srcAmount := e1.srcAmount,
                   destAmount := e2.destAmount,
                   percent := e1.percent,
                   poolAddresses := e1.poolAddresses ++ [e2.poolAddresses.headD ("")],
                   data := { path := e1.data.path ++ [e2.data.path.headD dfltLeg],
                             gasUSD := jsGasSum e1.data.gasUSD e2.data.gasUSD } }] }] }] := by
  have hm1 : isMergeableHop h1 = true := by
    simpa [isMergeableHop, he1] using hf1
  have hm2 : isMergeableHop h2 = true := by
    simpa [isMergeableHop, he2] using hf2
  have hbm : boundaryMatch h1 h2 = true := by
    unfold boundaryMatch lastTokenOut firstTokenIn
    rw [he1, he2]
    simpa using hb
  have hfix : fixRoute [h1, h2] = [fuseHop h1 h2] := by
    unfold fixRoute
    rw [List.foldl_cons, List.foldl_cons, List.foldl_nil]
    have s1 : mergeStep ([], false) h1 = ([h1], true) := by
      unfold mergeStep
      simp [hm1]
    rw [s1]
    unfold mergeStep
    simp [hm2, hbm]
  unfold curveV1Merge
  rw [hv]
  simp only [ne_eq, not_true_eq_false, if_false, hroute, List.map_cons,
    List.map_nil, hfix]
  simp [fuseHop, fuseEx, he1, he2]

/-- C1 counterexample, refuting two parts of the claim as stated.  Path:
on a concrete V6 rate of two adjacent mergeable hops with matching boundary
tokens where the second hop's path has two legs (`0xB → 0xC`, `0xC → 0xD`),
the merged hop's path is NOT the ordered concatenation of the two paths —
the absorbed hop's second leg is dropped.  Gas: on a concrete V6 rate of
two such hops with gas costs `1.0000015` and `0`, the merged gas string is
`"1.000001"` (the binary64 value nearest 1.0000015 lies below the decimal
tie, so `toFixed(6)` rounds down), whereas the claim's "sum rounded to 6
fractional digits computed by decimal-string parsing, without binary
floating-point drift beyond the declared rounding" demands `"1.000002"`;
the drift does reach the declared rounding digit. -/
theorem curveV1Merge_path_concat_cex :
    isMergeableHop exC1h1 = true ∧
    isMergeableHop exC1h2 = true ∧
    boundaryMatch exC1h1 exC1h2 = true ∧
    (curveV1Merge exC1rate).bestRoute =
      [{ percent := 100, swaps := [fuseHop exC1h1 exC1h2] }] ∧
    ((fuseHop exC1h1 exC1h2).swapExchanges.headD dfltEx).data.path =
      [{ tokenIn := "0xA", tokenOut := "0xB" },
       { tokenIn := "0xB", tokenOut := "0xC" }] ∧
    exC1e1.data.path ++ exC1e2.data.path =
      [{ tokenIn := "0xA", tokenOut := "0xB" },
       { tokenIn := "0xB", tokenOut := "0xC" },
       { tokenIn := "0xC", tokenOut := "0xD" }] ∧
    ((fuseHop exC1h1 exC1h2).swapExchanges.headD dfltEx).data.path ≠
      exC1e1.data.path ++ exC1e2.data.path ∧
    isMergeableHop exC1g1 = true ∧
    isMergeableHop exC1g2 = true ∧
    boundaryMatch exC1g1 exC1g2 = true ∧
    (curveV1Merge exC1grate).bestRoute =
      [{ percent := 100, swaps := [fuseHop exC1g1 exC1g2] }] ∧
    ((fuseHop exC1g1 exC1g2).swapExchanges.headD dfltEx).data.gasUSD =
      "1.000001" ∧
    specExactGasSum6 ("1.0000015") ("0") = "1.000002" ∧
    ((fuseHop exC1g1 exC1g2).swapExchanges.headD dfltEx).data.gasUSD ≠
      specExactGasSum6 ("1.0000015") ("0") := by
  decide

/-- C1 witness: the amended statement evaluated on the concrete two-hop V6
rate. -/
theorem curveV1Merge_adjacent_pair_witness :
    (curveV1Merge exC1rate).bestRoute =
      [{ percent := 100,
         swaps :=
           [{ srcToken := exC1h1.srcToken,
              srcDecimals := exC1h1.srcDecimals,
              destToken := exC1h2.destToken,
              destDecimals := exC1h2.destDecimals,
              swapExchanges :=
                [{ exchange := exC1e1.exchange,
                   srcAmount := exC1e1.srcAmount,
                   destAmount := exC1e2.destAmount,
                   percent := exC1e1.percent,
                   poolAddresses := exC1e1.poolAddresses ++ [exC1e2.poolAddresses.headD ("")],
                   data := { path := exC1e1.data.path ++ [exC1e2.data.path.headD dfltLeg],
                             gasUSD := jsGasSum exC1e1.data.gasUSD exC1e2.data.gasUSD } }] }] }] :=
  curveV1Merge_adjacent_pair exC1rate 100 exC1h1 exC1h2 exC1e1 exC1e2
    rfl rfl rfl rfl (by decide) (by decide) (by decide) (by decide) (by decide)

/-- C9: when the route merger fuses an eligible hop into the pending
candidate, it appends only the first element of the absorbed hop's path and
only the first of its pool addresses; any further path legs or pool
addresses of the absorbed hop are dropped. -/
theorem mergeStep_fuse_first_leg_only (out : List OptimalSwap)
    (p s : OptimalSwap) (e se : OptimalSwapExchange)
    (hpe : p.swapExchanges = [e]) (hse : s.swapExchanges = [se])
    (hs : isMergeableHop s = true)
    (hb : boundaryMatch p s = true) :
    mergeStep (out ++ [p], true) s = (out ++ [fuseHop p s], true) ∧
    (fuseHop p s).swapExchanges =
      [{ e with
          data := { e.data with
            path := e.data.path ++ [se.data.path.headD dfltLeg],
            gasUSD := jsGasSum e.data.gasUSD se.data.gasUSD },
          poolAddresses := e.poolAddresses ++ [se.poolAddresses.headD ("")],
          destAmount := se.destAmount }] := by
  constructor
  · unfold mergeStep
    simp [hs, List.getLastD_concat, hb, List.dropLast_concat]
  · simp [fuseHop, fuseEx, hpe, hse]

/-- C9 witness: fusing the concrete second hop (two path legs, two pool
addresses) into the concrete pending first hop appends only the absorbed
hop's first path leg and first pool address. -/
theorem mergeStep_fuse_first_leg_only_witness :
    mergeStep ([] ++ [exC1h1], true) exC1h2 = ([] ++ [fuseHop exC1h1 exC1h2], true) ∧
    (fuseHop exC1h1 exC1h2).swapExchanges =
      [{ exC1e1 with
          data := { exC1e1.data with
            path := exC1e1.data.path ++ [exC1e2.data.path.headD dfltLeg],
            gasUSD := jsGasSum exC1e1.data.gasUSD exC1e2.data.gasUSD },
          poolAddresses := exC1e1.poolAddresses ++ [exC1e2.poolAddresses.headD ("")],
          destAmount := exC1e2.destAmount }] :=
  mergeStep_fuse_first_leg_only [] exC1h1 exC1h2 exC1e1 exC1e2 rfl rfl
    (by decide) (by decide)

/-! ## Claim theorems about sampling and quote selection -/

/-- C5: for every non-negative amount, the sampler produces exactly 11
sample amounts with `sample[i] = amount * i / 10` (floor division, exact
integer arithmetic) for `i = 0..10`, so `sample[0] = 0`,
`sample[10] = amount` exactly, and the sequence is non-decreasing. -/
theorem sampleAmounts_spec (amount : Nat) :
    (sampleAmounts amount).length = 11 ∧
    (∀ i, i < 11 → (sampleAmounts amount).getD i 0 = amount * i / 10) ∧
    (sampleAmounts amount).headD 0 = 0 ∧
    (sampleAmounts amount).getLastD 0 = amount ∧
    (sampleAmounts amount).Pairwise (· ≤ ·) := by
  have he : sampleAmounts amount =
      [amount * 0 / 10, amount * 1 / 10, amount * 2 / 10, amount * 3 / 10,
       amount * 4 / 10, amount * 5 / 10, amount * 6 / 10, amount * 7 / 10,
       amount * 8 / 10, amount * 9 / 10, amount * 10 / 10] := rfl
  refine ⟨by rw [he]; rfl, ?_, ?_, ?_, ?_⟩
  · intro i hi
    rw [he]
    interval_cases i <;> rfl
  · rw [he]
    simp
  · rw [he]
    show amount * 10 / 10 = amount
    omega
  · unfold sampleAmounts
    exact List.Pairwise.map _
      (fun a b hab =>
        Nat.div_le_div_right (Nat.mul_le_mul_left amount (le_of_lt hab)))
      (List.pairwise_lt_range _)

/-- C5 witness: the theorem applied at `amount = 1000` gives the fourth
sample `300`. -/
theorem sampleAmounts_spec_witness : (sampleAmounts 1000).getD 3 0 = 1000 * 3 / 10 :=
  (sampleAmounts_spec 1000).2.1 3 (by decide)

/-- C6: for every non-empty quote list, `getPrices` picks the first quote,
reads the terminal (11th) sample as the quoted counter-amount, sets
`srcAmount` to the fixed amount and `destAmount` to the terminal quote for
SELL (and the reverse for BUY), and constructs a rate with exactly one
route containing exactly one swap containing exactly one swap exchange,
with percent 100 at every level. -/
theorem getPricesCore_first_quote (network blockNumber : Nat)
    (tokenFrom tokenTo : Token) (amount : Nat) (side : SwapSide)
    (q : Quote) (qs : List Quote) (ttp aug : String) :
    getPricesCore network blockNumber tokenFrom tokenTo amount side (q :: qs)
        ttp aug =
      .ok
        { blockNumber := blockNumber,
          network := network,
          srcToken := tokenFrom.address,
          srcDecimals := tokenFrom.decimals,
          srcAmount := toString
            (match side with | .SELL => amount | .BUY => q.prices.getD chunks 0),
          destToken := tokenTo.address,
          destDecimals := tokenTo.decimals,
          destAmount := toString
            (match side with | .SELL => q.prices.getD chunks 0 | .BUY => amount),
          bestRoute :=
            [{ percent := 100,
               swaps :=
                 [{ srcToken := tokenFrom.address,
                    srcDecimals := tokenFrom.decimals,
                    destToken := tokenTo.address,
                    destDecimals := tokenTo.decimals,
                    swapExchanges :=
                      [{ exchange := q.exchange,
                         srcAmount := toString
                           (match side with
                            | .SELL => amount
                            | .BUY => q.prices.getD chunks 0),
                         destAmount := toString
                           (match side with
                            | .SELL => q.prices.getD chunks 0
                            | .BUY => amount),
                         percent := 100,
                         poolAddresses := q.poolAddresses,
                         data := q.data }] }] }],
          gasCostUSD := "0",
          gasCost := "0",
          others := [],
          version := ParaSwapVersion.V5,
          side := side,
          tokenTransferProxy := ttp,
          contractAddress := aug } := by
  cases side <;> rfl

/-! ## Helper lemmas about deadline reconciliation -/

/-- One reconciliation step never increases the deadline. -/
theorem reconcileStep_le (d : Nat) (p : Option Nat) : reconcileStep d p ≤ d := by
  cases p with
  | none => exact le_refl d
  | some v =>
    show (if v ≠ 0 ∧ v < d then v else d) ≤ d
    by_cases h : v ≠ 0 ∧ v < d
    · rw [if_pos h]
      exact le_of_lt h.2
    · rw [if_neg h]

/-- Unfolding one reconciliation step of the fold. -/
theorem reconcileDeadline_cons (initial : Nat) (p : Option Nat)
    (ps : List (Option Nat)) :
    reconcileDeadline initial (p :: ps) =
      reconcileDeadline (reconcileStep initial p) ps := rfl

/-- The reconciled deadline never exceeds the initial deadline. -/
theorem reconcileDeadline_le_initial (ps : List (Option Nat)) :
    ∀ initial : Nat, reconcileDeadline initial ps ≤ initial := by
  induction ps with
  | nil => intro _; exact le_refl _
  | cons p ps ih =>
    intro initial
    rw [reconcileDeadline_cons]
    exact le_trans (ih _) (reconcileStep_le initial p)

/-- The reconciled deadline never exceeds a present non-zero proposal. -/
theorem reconcileDeadline_le_proposal (ps : List (Option Nat)) :
    ∀ (initial v : Nat), some v ∈ ps → v ≠ 0 →
      reconcileDeadline initial ps ≤ v := by
  induction ps with
  | nil => intro _ _ h; cases h
  | cons p ps ih =>
    intro initial v hv h0
    rcases List.mem_cons.mp hv with heq | hmem
    · subst heq
      rw [reconcileDeadline_cons]
      by_cases hlt : v < initial
      · have hstep : reconcileStep initial (some v) = v := by
          show (if v ≠ 0 ∧ v < initial then v else initial) = v
          rw [if_pos ⟨h0, hlt⟩]
        rw [hstep]
        exact reconcileDeadline_le_initial ps v
      · have hstep : reconcileStep initial (some v) = initial := by
          show (if v ≠ 0 ∧ v < initial then v else initial) = initial
          rw [if_neg fun hc => hlt hc.2]
        rw [hstep]
        exact le_trans (reconcileDeadline_le_initial ps initial)
          (Nat.le_of_not_lt hlt)
    · rw [reconcileDeadline_cons]
      exact ih _ v hmem h0

/-- The reconciled deadline is exactly the running minimum of the initial
deadline and the present non-zero proposals. -/
theorem reconcileDeadline_min_eq (ps : List (Option Nat)) :
    ∀ initial : Nat,
      reconcileDeadline initial ps =
        ((ps.filterMap id).filter (fun v => v != 0)).foldl min initial := by
  induction ps with
  | nil => intro _; rfl
  | cons p ps ih =>
    intro initial
    cases p with
    | none =>
      rw [reconcileDeadline_cons]
      simpa [List.filterMap_cons] using ih initial
    | some v =>
      by_cases h0 : v = 0
      · subst h0
        rw [reconcileDeadline_cons]
        have hstep : reconcileStep initial (some 0) = initial := by
          simp [reconcileStep]
        rw [hstep, ih initial]
        have hlist : ((some 0 :: ps).filterMap id).filter (fun v => v != 0) =
            (ps.filterMap id).filter (fun v => v != 0) := by
          simp [List.filterMap_cons, List.filter_cons]
        rw [hlist]
      · rw [reconcileDeadline_cons]
        have hstep : reconcileStep initial (some v) = min initial v := by
          show (if v ≠ 0 ∧ v < initial then v else initial) = min initial v
          rcases Nat.lt_or_ge v initial with h | h
          · rw [if_pos ⟨h0, h⟩]
            omega
          · rw [if_neg fun hc => (Nat.not_lt.mpr h) hc.2]
            omega
        rw [hstep, ih (min initial v)]
        have hlist : ((some v :: ps).filterMap id).filter (fun x => x != 0) =
            v :: (ps.filterMap id).filter (fun x => x != 0) := by
          simp [List.filterMap_cons, List.filter_cons, h0]
        rw [hlist, List.foldl_cons]

/-- A positive deadline stays positive through reconciliation. -/
theorem reconcileDeadline_pos (ps : List (Option Nat)) :
    ∀ initial : Nat, 0 < initial → 0 < reconcileDeadline initial ps := by
  induction ps with
  | nil => intro _ h; exact h
  | cons p ps ih =>
    intro initial h
    rw [reconcileDeadline_cons]
    apply ih
    cases p with
    | none => exact h
    | some v =>
      show 0 < (if v ≠ 0 ∧ v < initial then v else initial)
      by_cases hc : v ≠ 0 ∧ v < initial
      · rw [if_pos hc]
        omega
      · rw [if_neg hc]
        exact h

/-! ## Claim theorems about transaction assembly -/

/-- C7 counterexample: venue `DexOne` proposes the deadline `0`, which is
present and smaller than the initial default `1000600`, yet the payload
carries the default deadline `"1000600"`, not the minimum `0`; so the claim
as stated (payload deadline equals the minimum of the default and every
present smaller proposal, and is at most every venue-proposed deadline) is
false at this input. -/
theorem buildTransactionCore_zero_deadline_cex :
    (buildTransactionCore exC7ppZero exC7resolver 1000000 exC7rate 5 ("0xuser")
        ("uid-1")).map (fun tx => tx.deadline) = Except.ok ("1000600") ∧
    min (1000000 + 10 * 60) 0 = 0 ∧
    ("1000600" : String) ≠ toString (0 : Nat) := by
  exact ⟨rfl, rfl, by decide⟩

/-- C7 (amended): whenever transaction assembly succeeds, the payload
deadline is the reconciled deadline: the minimum of the initial default
(current unix time plus 600 seconds) and every venue-proposed deadline that
is present and non-zero; in particular it is at most the initial default
and at most every present non-zero proposal. -/
theorem buildTransactionCore_deadline_min (pp : String → Option PreProcessFn)
    (resolver : String → Option TokenResolver) (nowSeconds : Nat)
    (priceRoute : UnoptimizedRate) (minMaxAmount : Nat)
    (userAddress uuidValue : String) (tx : TxParams)
    (h : buildTransactionCore pp resolver nowSeconds priceRoute minMaxAmount
      userAddress uuidValue = .ok tx) :
    ∃ res : List OptimalRoute × List (Option Nat),
      processRoutes pp resolver priceRoute.side
          (minMaxAmount,
            match priceRoute.side with
            | .SELL => priceRoute.destAmount
            | .BUY => priceRoute.srcAmount)
          userAddress priceRoute.bestRoute = .ok res ∧
      tx.deadline = toString (reconcileDeadline (nowSeconds + 10 * 60) res.2) ∧
      reconcileDeadline (nowSeconds + 10 * 60) res.2 ≤ nowSeconds + 10 * 60 ∧
      (∀ v : Nat, some v ∈ res.2 → v ≠ 0 →
        reconcileDeadline (nowSeconds + 10 * 60) res.2 ≤ v) ∧
      reconcileDeadline (nowSeconds + 10 * 60) res.2 =
        ((res.2.filterMap id).filter (fun v => v != 0)).foldl min
          (nowSeconds + 10 * 60) := by
  unfold buildTransactionCore at h
  cases hp : processRoutes pp resolver priceRoute.side
      (minMaxAmount,
        match priceRoute.side with
        | .SELL => priceRoute.destAmount
        | .BUY => priceRoute.srcAmount)
      userAddress priceRoute.bestRoute with
  | error e =>
    simp [hp] at h
  | ok res =>
    simp only [hp, Except.ok.injEq] at h
    refine ⟨res, rfl, ?_, reconcileDeadline_le_initial res.2 _,
      fun v hv h0 => reconcileDeadline_le_proposal res.2 _ v hv h0,
      reconcileDeadline_min_eq res.2 _⟩
    rw [← h]

/-- C7 witness: the amended statement evaluated on the concrete rate whose
venue proposes the deadline `500` at time `1000000`. -/
theorem buildTransactionCore_deadline_min_witness :
    ∃ res : List OptimalRoute × List (Option Nat),
      processRoutes exC7pp exC7resolver exC7rate.side
          (5,
            match exC7rate.side with
            | .SELL => exC7rate.destAmount
            | .BUY => exC7rate.srcAmount)
          ("0xuser") exC7rate.bestRoute = .ok res ∧
      exC7tx.deadline = toString (reconcileDeadline (1000000 + 10 * 60) res.2) ∧
      reconcileDeadline (1000000 + 10 * 60) res.2 ≤ 1000000 + 10 * 60 ∧
      (∀ v : Nat, some v ∈ res.2 → v ≠ 0 →
        reconcileDeadline (1000000 + 10 * 60) res.2 ≤ v) ∧
      reconcileDeadline (1000000 + 10 * 60) res.2 =
        ((res.2.filterMap id).filter (fun v => v != 0)).foldl min
          (1000000 + 10 * 60) :=
  buildTransactionCore_deadline_min exC7pp exC7resolver 1000000 exC7rate 5
    ("0xuser") ("uid-1") exC7tx rfl

/-- C10: in deadline reconciliation, an absent proposal and the falsy
proposal `0` are ignored; only a present non-zero proposal strictly smaller
than the current deadline lowers it; in particular a proposed deadline of
`0` never makes a positive deadline zero. -/
theorem reconcileDeadline_falsy_ignored :
    (∀ d : Nat, reconcileStep d none = d) ∧
    (∀ d : Nat, reconcileStep d (some 0) = d) ∧
    (∀ d v : Nat, v ≠ 0 → v < d → reconcileStep d (some v) = v) ∧
    (∀ d v : Nat, ¬ v < d → reconcileStep d (some v) = d) ∧
    (∀ (initial : Nat) (ps qs : List (Option Nat)),
      reconcileDeadline initial (ps ++ some 0 :: qs) =
        reconcileDeadline initial (ps ++ qs)) ∧
    (∀ (initial : Nat) (ps : List (Option Nat)),
      0 < initial → 0 < reconcileDeadline initial ps) := by
  have h00 : ∀ d : Nat, reconcileStep d (some 0) = d := fun d => by
    simp [reconcileStep]
  refine ⟨fun d => rfl, h00, ?_, ?_, ?_, ?_⟩
  · intro d v h0 hlt
    show (if v ≠ 0 ∧ v < d then v else d) = v
    rw [if_pos ⟨h0, hlt⟩]
  · intro d v hge
    show (if v ≠ 0 ∧ v < d then v else d) = d
    rw [if_neg fun hc => hge hc.2]
  · intro initial ps qs
    unfold reconcileDeadline
    rw [List.foldl_append, List.foldl_append, List.foldl_cons, h00]
  · exact fun initial ps h => reconcileDeadline_pos ps initial h

/-- C10 witness: a proposed deadline of `0` leaves the positive default
positive. -/
theorem reconcileDeadline_falsy_ignored_witness :
    0 < reconcileDeadline 1000600 [some 0] :=
  reconcileDeadline_falsy_ignored.2.2.2.2.2 1000600 [some 0] (by decide)

/-- A venue that claims preprocessing support but ships no token resolver
makes its exchange's preprocessing fail with the configuration error. -/
theorem preprocessOne_bad_caps (pp : String → Option PreProcessFn)
    (resolver : String → Option TokenResolver) (side : SwapSide)
    (slip : Nat × String) (txOrigin : String) (se : OptimalSwapExchange)
    (hpp : (pp se.exchange).isSome = true)
    (hres : (resolver se.exchange).isNone = true) :
    preprocessOne pp resolver side slip txOrigin se =
      .error .configurationError := by
  unfold preprocessOne
  cases hp : pp se.exchange with
  | none => rw [hp] at hpp; cases hpp
  | some f =>
    cases hr : resolver se.exchange with
    | none => rfl
    | some g => rw [hr] at hres; cases hres

/-- If preprocessing of a hop's exchanges succeeded, every exchange's
individual preprocessing succeeded. -/
theorem processExchanges_ok_mem (pp : String → Option PreProcessFn)
    (resolver : String → Option TokenResolver) (side : SwapSide)
    (slip : Nat × String) (txOrigin : String) :
    ∀ (ses : List OptimalSwapExchange)
      (out : List OptimalSwapExchange × List (Option Nat)),
      processExchanges pp resolver side slip txOrigin ses = .ok out →
      ∀ se ∈ ses, ∃ r, preprocessOne pp resolver side slip txOrigin se = .ok r := by
  intro ses
  induction ses with
  | nil => intro _ _ se hse; cases hse
  | cons a rest ih =>
    intro out h se hse
    cases hpre : preprocessOne pp resolver side slip txOrigin a with
    | error e =>
      simp [processExchanges, hpre] at h
    | ok r =>
      cases hrest : processExchanges pp resolver side slip txOrigin rest with
      | error e =>
        simp [processExchanges, hpre, hrest] at h
      | ok rs =>
        rcases List.mem_cons.mp hse with heq | hmem
        · subst heq
          exact ⟨r, hpre⟩
        · exact ih rs hrest se hmem

/-- If preprocessing of a route's hops succeeded, every hop's exchange
traversal succeeded. -/
theorem processSwaps_ok_mem (pp : String → Option PreProcessFn)
    (resolver : String → Option TokenResolver) (side : SwapSide)
    (slip : Nat × String) (txOrigin : String) :
    ∀ (sws : List OptimalSwap) (out : List OptimalSwap × List (Option Nat)),
      processSwaps pp resolver side slip txOrigin sws = .ok out →
      ∀ sw ∈ sws, ∃ r,
        processExchanges pp resolver side slip txOrigin sw.swapExchanges = .ok r := by
  intro sws
  induction sws with
  | nil => intro _ _ sw hsw; cases hsw
  | cons a rest ih =>
    intro out h sw hsw
    cases hpre : processExchanges pp resolver side slip txOrigin a.swapExchanges with
    | error e =>
      simp [processSwaps, hpre] at h
    | ok r =>
      cases hrest : processSwaps pp resolver side slip txOrigin rest with
      | error e =>
        simp [processSwaps, hpre, hrest] at h
      | ok rs =>
        rcases List.mem_cons.mp hsw with heq | hmem
        · subst heq
          exact ⟨r, hpre⟩
        · exact ih rs hrest sw hmem

/-- If preprocessing of the whole rate succeeded, every route's hop
traversal succeeded. -/
theorem processRoutes_ok_mem (pp : String → Option PreProcessFn)
    (resolver : String → Option TokenResolver) (side : SwapSide)
    (slip : Nat × String) (txOrigin : String) :
    ∀ (rs : List OptimalRoute) (out : List OptimalRoute × List (Option Nat)),
      processRoutes pp resolver side slip txOrigin rs = .ok out →
      ∀ r ∈ rs, ∃ o,
        processSwaps pp resolver side slip txOrigin r.swaps = .ok o := by
  intro rs
  induction rs with
  | nil => intro _ _ r hr; cases hr
  | cons a rest ih =>
    intro out h r hr
    cases hpre : processSwaps pp resolver side slip txOrigin a.swaps with
    | error e =>
      simp [processRoutes, hpre] at h
    | ok o =>
      cases hrest : processRoutes pp resolver side slip txOrigin rest with
      | error e =>
        simp [processRoutes, hpre, hrest] at h
      | ok os =>
        rcases List.mem_cons.mp hr with heq | hmem
        · subst heq
          exact ⟨o, hpre⟩
        · exact ih os hrest r hmem

/-- C8: during transaction assembly, a venue that does not support
preprocessing passes its exchange through unchanged (with no proposed
deadline); a venue that supports preprocessing but cannot resolve a token
object fails its exchange with the configuration error; and if any exchange
of the rate is in that misconfigured state, the whole assembly fails with
the configuration error. -/
theorem buildTransactionCore_config_error (pp : String → Option PreProcessFn)
    (resolver : String → Option TokenResolver) :
    (∀ (side : SwapSide) (slip : Nat × String) (txOrigin : String)
        (se : OptimalSwapExchange), pp se.exchange = none →
      preprocessOne pp resolver side slip txOrigin se = .ok (se, none)) ∧
    (∀ (side : SwapSide) (slip : Nat × String) (txOrigin : String)
        (se : OptimalSwapExchange),
      (pp se.exchange).isSome = true → (resolver se.exchange).isNone = true →
      preprocessOne pp resolver side slip txOrigin se =
        .error .configurationError) ∧
    (∀ (nowSeconds : Nat) (priceRoute : UnoptimizedRate) (minMaxAmount : Nat)
        (userAddress uuidValue : String),
      (∃ r ∈ priceRoute.bestRoute, ∃ sw ∈ r.swaps, ∃ se ∈ sw.swapExchanges,
        (pp se.exchange).isSome = true ∧ (resolver se.exchange).isNone = true) →
      buildTransactionCore pp resolver nowSeconds priceRoute minMaxAmount
        userAddress uuidValue = .error .configurationError) := by
  refine ⟨?_, ?_, ?_⟩
  · intro side slip txOrigin se hnone
    unfold preprocessOne
    rw [hnone]
  · intro side slip txOrigin se hpp hres
    exact preprocessOne_bad_caps pp resolver side slip txOrigin se hpp hres
  · intro nowSeconds priceRoute minMaxAmount userAddress uuidValue hbad
    obtain ⟨r, hr, sw, hsw, se, hse, hpp, hres⟩ := hbad
    unfold buildTransactionCore
    cases hp : processRoutes pp resolver priceRoute.side
        (minMaxAmount,
          match priceRoute.side with
          | .SELL => priceRoute.destAmount
          | .BUY => priceRoute.srcAmount)
        userAddress priceRoute.bestRoute with
    | error e =>
      cases e
      simp only [hp]
    | ok res =>
      exfalso
      obtain ⟨o1, ho1⟩ := processRoutes_ok_mem pp resolver _ _ _
        priceRoute.bestRoute res hp r hr
      obtain ⟨o2, ho2⟩ := processSwaps_ok_mem pp resolver _ _ _
        r.swaps o1 ho1 sw hsw
      obtain ⟨o3, ho3⟩ := processExchanges_ok_mem pp resolver _ _ _
        sw.swapExchanges o2 ho2 se hse
      rw [preprocessOne_bad_caps pp resolver _ _ _ se hpp hres] at ho3
      cases ho3

/-- C8 witness: assembling the concrete rate whose only venue claims
preprocessing support while the resolver table has no entry fails with the
configuration error. -/
theorem buildTransactionCore_config_error_witness :
    buildTransactionCore exC8pp exC8resolver 0 exC8rate 1 ("0xu") ("uid") =
      .error .configurationError :=
  (buildTransactionCore_config_error exC8pp exC8resolver).2.2 0 exC8rate 1
    ("0xu") ("uid") (by decide)

end ParaswapCore
